import Mathlib

/-!
# iPSC Culture Tracker - verification of the data layer and entry form

Shallow embedding of `src/db.py` and the entry-form submit flow of
`src/app.py`.  The Snowflake `logs`, `weekend_schedule` and reference tables
are modelled as explicit in-memory stores; each Python function is translated
into a pure Lean function over those stores.
-/

/-- A calendar date, as stored in a SQL `DATE` column (`datetime.date`). -/
structure Ymd where
  y : Nat
  m : Nat
  d : Nat
deriving DecidableEq

/-- Strict ordering of dates, as Python compares `datetime.date` values
(lexicographic on year, month, day). -/
def Ymd.lt (a b : Ymd) : Prop :=
  a.y < b.y ∨ (a.y = b.y ∧ (a.m < b.m ∨ (a.m = b.m ∧ a.d < b.d)))

instance (a b : Ymd) : Decidable (Ymd.lt a b) := by
  unfold Ymd.lt; infer_instance

/-- Left-pad the decimal rendering of `n` with zeros to width `w`
(`strftime` zero padding and `f"{n:02d}"`). -/
def padNum (w : Nat) (n : Nat) : String :=
  let s := toString n
  String.mk (List.replicate (w - s.length) '0') ++ s

/-- Rendering `d.strftime("%Y%m%d")` from `generate_thaw_id`. -/
def yyyymmdd (d : Ymd) : String :=
  padNum 4 d.y ++ padNum 2 d.m ++ padNum 2 d.d

/-- Model of `db._tokenize_name`: keep alphanumeric characters, upper-case, fall back
to `fallback` when nothing is left, and truncate when `max_len` is truthy. -/
def tokenizeName (text : Option String) (maxLen : Option Nat) (fallback : String) : String :=
  let token := String.mk (((text.getD "").toList.filter Char.isAlphanum).map Char.toUpper)
  if token = "" then fallback
  else
    match maxLen with
    | none => token
    | some n => if n = 0 then token else token.take n

/-- Helper for `splitWs`: `acc` holds the reversed current word. -/
def splitWsAux : List Char → List Char → List (List Char)
  | [], acc => if acc = [] then [] else [acc.reverse]
  | c :: cs, acc =>
    if c.isWhitespace then
      if acc = [] then splitWsAux cs [] else acc.reverse :: splitWsAux cs []
    else splitWsAux cs (c :: acc)

/-- Python `str.split()` with no argument: split on whitespace runs,
dropping empty parts. -/
def splitWs (l : List Char) : List (List Char) := splitWsAux l []

/-- Python `str.strip()`: drop leading and trailing whitespace. -/
def pyStrip (s : String) : String :=
  String.mk (((s.toList.dropWhile Char.isWhitespace).reverse.dropWhile Char.isWhitespace).reverse)

/-- Model of `db._operator_initials`: first letters of the first two
whitespace/hyphen-delimited name parts (`name.replace("-", " ").split()`),
upper-cased, with fallback `"OP"`. -/
def operatorInitials (name : Option String) : String :=
  match name with
  | none => "OP"
  | some s =>
    if s = "" then "OP"
    else
      let parts := splitWs (s.toList.map (fun c => if c = '-' then ' ' else c))
      if parts = [] then "OP"
      else
        let ini := String.mk ((parts.take 2).map (fun p => (p.take 1).map Char.toUpper)).flatten
        if ini = "" then "OP" else ini

/-- SQL `LIKE` pattern matching (case-sensitive, `%` matches any sequence,
`_` matches exactly one character), used by `generate_thaw_id`'s
`WHERE thaw_id LIKE %s` filter. -/
def likeMatch : List Char → List Char → Bool
  | [], s => s.isEmpty
  | c :: ps, s =>
    if c = '%' then s.tails.any (fun t => likeMatch ps t)
    else
      match s with
      | [] => false
      | d :: s1 => (c == '_' || c == d) && likeMatch ps s1

/-- One row of the `logs` table (`CREATE TABLE logs` in `db.init_db`).
`id` is the `AUTOINCREMENT` primary key; nullable columns are `Option`s. -/
structure LogRow where
  id : Nat
  date : Ymd
  cell_line : Option String
  event_type : Option String
  passage : Option Int
  vessel : Option String
  location : Option String
  medium : Option String
  cell_type : Option String
  notes : Option String
  operator : Option String
  thaw_id : Option String
  cryo_vial_position : Option String
  image_path : Option String
  assigned_to : Option String
  next_action_date : Option Ymd
  volume : Option Int
  cryo_storage_position : Option String
  created_by : String
  created_at : Nat
deriving DecidableEq

/-- The column values supplied to `db.insert_log` (every `logs` column except
the store-generated `id`). -/
structure LogPayload where
  date : Ymd
  cell_line : Option String
  event_type : Option String
  passage : Option Int
  vessel : Option String
  location : Option String
  medium : Option String
  cell_type : Option String
  notes : Option String
  operator : Option String
  thaw_id : Option String
  cryo_vial_position : Option String
  image_path : Option String
  assigned_to : Option String
  next_action_date : Option Ymd
  volume : Option Int
  cryo_storage_position : Option String
  created_by : String
  created_at : Nat
deriving DecidableEq

/-- The `logs` table: its rows plus the `AUTOINCREMENT` counter that the
store uses to assign the next primary key. -/
structure LogStore where
  rows : List LogRow
  nextId : Nat
deriving DecidableEq

/-- The row created by `INSERT INTO logs (...)` once the store has assigned
primary key `i`. -/
def LogPayload.toRow (p : LogPayload) (i : Nat) : LogRow :=
  { id := i, date := p.date, cell_line := p.cell_line, event_type := p.event_type
    passage := p.passage, vessel := p.vessel, location := p.location
    medium := p.medium, cell_type := p.cell_type, notes := p.notes
    operator := p.operator, thaw_id := p.thaw_id
    cryo_vial_position := p.cryo_vial_position, image_path := p.image_path
    assigned_to := p.assigned_to, next_action_date := p.next_action_date
    volume := p.volume, cryo_storage_position := p.cryo_storage_position
    created_by := p.created_by, created_at := p.created_at }

/-- Model of `db.insert_log`: executes the INSERT (the store assigns the autoincrement
id) and then returns the literal constant `0`. -/
def insertLog (s : LogStore) (p : LogPayload) : Int × LogStore :=
  (0, { rows := s.rows ++ [p.toRow s.nextId], nextId := s.nextId + 1 })

/-- The prefix `f"TH-{day}-{cell_token}-{op_token}"` built by
`db.generate_thaw_id`. -/
def thawPfx (cellLine op : Option String) (d : Ymd) : String :=
  "TH-" ++ yyyymmdd d ++ "-" ++ tokenizeName cellLine none "CELL" ++ "-" ++ operatorInitials op

/-- Model of `db.generate_thaw_id`: counts rows whose `thaw_id` matches the SQL
pattern `LIKE prefix + "%"` (NULL never matches) and appends the
zero-padded count + 1. -/
def generateThawId (s : LogStore) (cellLine op : Option String) (d : Ymd) : String :=
  let pfx := thawPfx cellLine op d
  let count := (s.rows.filter (fun r =>
    match r.thaw_id with
    | some t => likeMatch (pfx.toList ++ ['%']) t.toList
    | none => false)).length
  pfx ++ "-" ++ padNum 2 (count + 1)

/-- Count of rows whose `thaw_id` literally starts with `pfx`. -/
def startsWithCount (s : LogStore) (pfx : String) : Nat :=
  (s.rows.filter (fun r =>
    match r.thaw_id with
    | some t => pfx.toList.isPrefixOf t.toList
    | none => false)).length

/-- Modelled from the spec's words (not from the code): the thaw id whose
trailing counter counts entries whose `thaw_id` *starts with* the exact
prefix, to be compared with `generateThawId`. -/
def generateThawIdPerSpec (s : LogStore) (cellLine op : Option String) (d : Ymd) : String :=
  let pfx := thawPfx cellLine op d
  pfx ++ "-" ++ padNum 2 (startsWithCount s pfx + 1)

/-- Row `a` sorts strictly before `b` under `ORDER BY date DESC, created_at DESC`
(that is, `a` is strictly more recent than `b`). -/
def rowLater (a b : LogRow) : Prop :=
  Ymd.lt b.date a.date ∨ (b.date = a.date ∧ b.created_at < a.created_at)

instance (a b : LogRow) : Decidable (rowLater a b) := by
  unfold rowLater; infer_instance

/-- One step of scanning for the most recent row: keep the accumulator
unless the next row sorts strictly more recent. -/
def bestStep (acc : Option LogRow) (r : LogRow) : Option LogRow :=
  match acc with
  | none => some r
  | some b => if rowLater r b then some r else some b

/-- Semantics of `ORDER BY date DESC, created_at DESC LIMIT 1` over a row list: the
(first, on exact ties) most recent row. -/
def bestRow (l : List LogRow) : Option LogRow :=
  l.foldl bestStep none

/-- Model of `db.get_last_log_for_cell_line`: most recent row with this cell line. -/
def getLastLogForCellLine (s : LogStore) (c : String) : Option LogRow :=
  bestRow (s.rows.filter (fun r => decide (r.cell_line = some c)))

/-- Model of `db.predict_next_passage`: last passage + 1 when the last logged passage
is a positive integer, otherwise `none`. -/
def predictNextPassage (s : LogStore) (c : String) : Option Int :=
  match getLastLogForCellLine s c with
  | none => none
  | some last =>
    let passage : Int := last.passage.getD 0
    if passage > 0 then some (passage + 1) else none

/-- Model of `db.get_last_thaw_id`: most recent `Thawing` row for the cell line with a
non-NULL `thaw_id`; an empty-string `thaw_id` is falsy and yields `none`. -/
def getLastThawId (s : LogStore) (c : String) : Option String :=
  let row := bestRow (s.rows.filter (fun r =>
    decide (r.cell_line = some c) && decide (r.event_type = some "Thawing") && r.thaw_id.isSome))
  match row with
  | none => none
  | some r =>
    match r.thaw_id with
    | none => none
    | some t => if t = "" then none else some t

/-- Modelled from the spec's words (not from the code): the `thaw_id` of the
most recent entry with `event_type = "Thawing"` for the cell line (ordered by
date desc, created_at desc), with no non-NULL restriction; to be compared
with `getLastThawId`. -/
def lastThawIdPerSpec (s : LogStore) (c : String) : Option String :=
  (bestRow (s.rows.filter (fun r =>
    decide (r.cell_line = some c) && decide (r.event_type = some "Thawing")))).bind
    (fun r => r.thaw_id)

/-- The `field_updates` dict passed to `db.update_log_fields`: for each
column, `none` means the key is absent; for a nullable column,
`some none` means the key is present with SQL NULL as its value. -/
structure LogUpdates where
  id : Option Nat := none
  date : Option Ymd := none
  cell_line : Option (Option String) := none
  event_type : Option (Option String) := none
  passage : Option (Option Int) := none
  vessel : Option (Option String) := none
  location : Option (Option String) := none
  medium : Option (Option String) := none
  cell_type : Option (Option String) := none
  notes : Option (Option String) := none
  operator : Option (Option String) := none
  thaw_id : Option (Option String) := none
  cryo_vial_position : Option (Option String) := none
  image_path : Option (Option String) := none
  assigned_to : Option (Option String) := none
  next_action_date : Option (Option Ymd) := none
  volume : Option (Option Int) := none
  cryo_storage_position : Option (Option String) := none
  created_by : Option String := none
  created_at : Option Nat := none
deriving DecidableEq

/-- The empty `field_updates` dict (`if not updates: return`). -/
def LogUpdates.empty : LogUpdates := {}

/-- Effect of `UPDATE logs SET <keys> ...` on one matching row: each supplied
column is overwritten, every other column keeps its value. -/
def applyUpdates (u : LogUpdates) (r : LogRow) : LogRow :=
  { id := u.id.getD r.id
    date := u.date.getD r.date
    cell_line := u.cell_line.getD r.cell_line
    event_type := u.event_type.getD r.event_type
    passage := u.passage.getD r.passage
    vessel := u.vessel.getD r.vessel
    location := u.location.getD r.location
    medium := u.medium.getD r.medium
    cell_type := u.cell_type.getD r.cell_type
    notes := u.notes.getD r.notes
    operator := u.operator.getD r.operator
    thaw_id := u.thaw_id.getD r.thaw_id
    cryo_vial_position := u.cryo_vial_position.getD r.cryo_vial_position
    image_path := u.image_path.getD r.image_path
    assigned_to := u.assigned_to.getD r.assigned_to
    next_action_date := u.next_action_date.getD r.next_action_date
    volume := u.volume.getD r.volume
    cryo_storage_position := u.cryo_storage_position.getD r.cryo_storage_position
    created_by := u.created_by.getD r.created_by
    created_at := u.created_at.getD r.created_at }

/-- The failure conditions the spec names for the log-store API. -/
inductive DbError where
  | notFound
deriving DecidableEq

/-- Model of `db.update_log_fields`: returns immediately on an empty dict, otherwise
runs `UPDATE logs SET ... WHERE id = %s`.  The Python function contains no
raise path, so the embedding is `Except.ok` on every input. -/
def updateLogFields (s : LogStore) (logId : Nat) (u : LogUpdates) :
    Except DbError LogStore :=
  if u = LogUpdates.empty then Except.ok s
  else
    Except.ok
      { s with rows := s.rows.map (fun r => if r.id = logId then applyUpdates u r else r) }

/-- One element of the `changes` iterable given to `db.bulk_update_logs`:
the row id from the payload (absent when the dict has no `"id"` key) plus
the remaining keys as field updates. -/
structure BulkChange where
  id : Option Nat
  updates : LogUpdates
deriving DecidableEq

/-- Model of `db.bulk_update_logs`: for each payload, skip it when the id is absent or
no updates remain, otherwise apply `update_log_fields`; an error would
propagate and abort the remaining iterations. -/
def bulkUpdateLogs (s : LogStore) : List BulkChange → Except DbError LogStore
  | [] => Except.ok s
  | c :: rest =>
    match c.id with
    | none => bulkUpdateLogs s rest
    | some i =>
      if c.updates = LogUpdates.empty then bulkUpdateLogs s rest
      else
        match updateLogFields s i c.updates with
        | Except.ok s2 => bulkUpdateLogs s2 rest
        | Except.error e => Except.error e

/-- The six reference-catalog kinds accepted by `db._ref_table_for`. -/
inductive RefKind where
  | cell_line
  | event_type
  | vessel
  | location
  | cell_type
  | culture_medium
deriving DecidableEq

/-- The six reference tables (`name VARCHAR PRIMARY KEY, created_at ...`),
each a list of (name, created_at) rows. -/
structure RefDb where
  cell_lines : List (String × Nat) := []
  event_types : List (String × Nat) := []
  vessels : List (String × Nat) := []
  locations : List (String × Nat) := []
  cell_types : List (String × Nat) := []
  culture_media : List (String × Nat) := []
deriving DecidableEq

/-- Model of `db._ref_table_for`: the table a catalog kind maps to. -/
def refTable (db : RefDb) : RefKind → List (String × Nat)
  | RefKind.cell_line => db.cell_lines
  | RefKind.event_type => db.event_types
  | RefKind.vessel => db.vessels
  | RefKind.location => db.locations
  | RefKind.cell_type => db.cell_types
  | RefKind.culture_medium => db.culture_media

/-- Replace the table a catalog kind maps to. -/
def setRefTable (db : RefDb) (k : RefKind) (t : List (String × Nat)) : RefDb :=
  match k with
  | RefKind.cell_line => { db with cell_lines := t }
  | RefKind.event_type => { db with event_types := t }
  | RefKind.vessel => { db with vessels := t }
  | RefKind.location => { db with locations := t }
  | RefKind.cell_type => { db with cell_types := t }
  | RefKind.culture_medium => { db with culture_media := t }

/-- Effect of `INSERT INTO t (name, created_at) SELECT %s, %s WHERE NOT EXISTS
(SELECT 1 FROM t WHERE name = %s)`. -/
def insertIfAbsent (t : List (String × Nat)) (name : String) (ts : Nat) :
    List (String × Nat) :=
  if t.any (fun e => decide (e.1 = name)) then t else t ++ [(name, ts)]

/-- Model of `db.add_ref_value`: conditional insert of the stripped name. -/
def addRefValue (db : RefDb) (k : RefKind) (name : String) (now : Nat) : RefDb :=
  setRefTable db k (insertIfAbsent (refTable db k) (pyStrip name) now)

/-- Number of catalog rows carrying exactly this name. -/
def countRef (t : List (String × Nat)) (name : String) : Nat :=
  (t.filter (fun e => decide (e.1 = name))).length

/-- One row of the `weekend_schedule` table (`date` is the primary key). -/
structure WeekendRow where
  date : Ymd
  assigned_to : Option String
  notes : Option String
  updated_at : Nat
deriving DecidableEq

/-- Model of `db.get_weekend_assignment_for_date`: single exact-date lookup; the
Python `assigned or None` maps an empty string to `None`. -/
def getWeekendAssignmentForDate (rows : List WeekendRow) (d : Ymd) : Option String :=
  match rows.find? (fun r => decide (r.date = d)) with
  | none => none
  | some row =>
    match row.assigned_to with
    | none => none
    | some a => if a = "" then none else some a

/-- Model of `app.get_cached_weekend_assignment`: scan for the first row with this
exact date, then `assignment.strip() or None`. -/
def cachedWeekendAssignment (rows : List WeekendRow) (d : Ymd) : Option String :=
  match rows.find? (fun r => decide (r.date = d)) with
  | none => none
  | some row =>
    match row.assigned_to with
    | none => none
    | some a => if pyStrip a = "" then none else some (pyStrip a)

/-- Model of `app._is_blank`: `None` or an all-whitespace string. -/
def isBlank : Option String → Bool
  | none => true
  | some s => decide (pyStrip s = "")

/-- Python string truthiness for optional strings: a non-empty string. -/
def truthy : Option String → Bool
  | none => false
  | some s => decide (s ≠ "")

/-- The widget values visible to the Save Entry handler in `app.py`. -/
structure SubmitForm where
  cell_line : Option String
  vessel : Option String
  location : Option String
  medium : Option String
  cell_type : Option String
  cryo_vial_position : Option String
  operator : Option String
  notes : Option String
  event_type : String
  linked_thaw_id : Option String
  passage_no : Option Int
  split_auto : Option Int
  assigned_to : Option String
  log_date : Ymd
  next_action_date : Option Ymd
  volume : Option Int
deriving DecidableEq

/-- The required-field validation of the submit handler (in source order). -/
def missingLabels (f : SubmitForm) : List String :=
  (if isBlank f.cell_line then ["Cell Line"] else []) ++
  (if isBlank f.vessel then ["Vessel"] else []) ++
  (if isBlank f.location then ["Location"] else []) ++
  (if isBlank f.medium then ["Culture Medium"] else []) ++
  (if isBlank f.cell_type then ["Cell Type"] else []) ++
  (if f.event_type = "Thawing" ∧ isBlank f.cryo_vial_position then ["Cryo Vial Position"] else []) ++
  (if f.event_type ≠ "Thawing" ∧ (truthy f.linked_thaw_id = false ∨ f.linked_thaw_id = some "(none)")
    then ["Linked Thaw ID"] else []) ++
  (if isBlank f.operator then ["Operator"] else [])

/-- The two `st.error` + `st.stop` exits of the submit handler. -/
inductive SubmitError where
  | missingFields (labels : List String)
  | pastNextActionDate
deriving DecidableEq

/-- Test `if next_action_date and next_action_date < date.today()`. -/
def nadPast (nad : Option Ymd) (today : Ymd) : Bool :=
  match nad with
  | none => false
  | some d => decide (Ymd.lt d today)

/-- The Save Entry submit flow of `app.py` (lines 776-846): required-field
validation, past next-action-date validation, thaw-id generation, passage and
assignee resolution, then `insert_log`.  `created_by` is the operator (which
the blank check has forced to be non-blank). -/
def submitEntry (f : SubmitForm) (today : Ymd) (now : Nat) (s : LogStore)
    (weekend : List WeekendRow) : Except SubmitError LogStore :=
  if missingLabels f ≠ [] then Except.error (SubmitError.missingFields (missingLabels f))
  else if nadPast f.next_action_date today then Except.error SubmitError.pastNextActionDate
  else
    let thawIdVal :=
      if f.event_type = "Thawing" then generateThawId s f.cell_line f.operator f.log_date
      else
        match f.linked_thaw_id with
        | some t => if t ≠ "" ∧ t ≠ "(none)" then t else ""
        | none => ""
    let finalPassage :=
      match f.passage_no with
      | some p => if p = 0 then none else some p
      | none => none
    let finalPassage2 :=
      if f.event_type = "Split" then
        match f.split_auto with
        | some v => if v = 0 then finalPassage else some v
        | none => finalPassage
      else finalPassage
    let resolvedAssignee : Option String :=
      match f.assigned_to with
      | some a => if a = "(unassigned)" then none else some a
      | none => none
    let resolvedAssignee2 :=
      if truthy resolvedAssignee = false then
        match f.next_action_date with
        | some d =>
          match cachedWeekendAssignment weekend d with
          | some w => some w
          | none => resolvedAssignee
        | none => resolvedAssignee
      else resolvedAssignee
    let payload : LogPayload :=
      { date := f.log_date, cell_line := f.cell_line, event_type := some f.event_type
        passage := finalPassage2, vessel := f.vessel, location := f.location
        medium := f.medium, cell_type := f.cell_type, volume := f.volume
        notes := f.notes, operator := f.operator, thaw_id := some thawIdVal
        cryo_vial_position := f.cryo_vial_position, image_path := none
        assigned_to := resolvedAssignee2
        next_action_date := f.next_action_date
        cryo_storage_position := none
        created_by := f.operator.getD "", created_at := now }
    Except.ok (insertLog s payload).2

/-! ## Concrete data for witnesses and counterexamples -/

/-- A baseline `logs` row; concrete stores below override single fields. -/
def baseRow : LogRow :=
  { id := 1, date := ⟨2024, 1, 1⟩, cell_line := none, event_type := none
    passage := none, vessel := none, location := none, medium := none
    cell_type := none, notes := none, operator := none, thaw_id := none
    cryo_vial_position := none, image_path := none, assigned_to := none
    next_action_date := none, volume := none, cryo_storage_position := none
    created_by := "alice", created_at := 1 }

/-- An empty `logs` table whose autoincrement counter starts at 1. -/
def emptyLogStore : LogStore := ⟨[], 1⟩

/-- A store holding one prior thaw entry, used to exercise the LIKE filter of
`generate_thaw_id`. -/
def thawCexStore : LogStore :=
  ⟨[{ baseRow with event_type := some "Thawing", thaw_id := some "TH-20240301-CELL-JD-01" }], 2⟩

/-- A concrete payload for exercising `insert_log`. -/
def payA : LogPayload :=
  { date := ⟨2024, 1, 2⟩, cell_line := some "L", event_type := some "Observation"
    passage := none, vessel := none, location := none, medium := none
    cell_type := none, notes := none, operator := none, thaw_id := none
    cryo_vial_position := none, image_path := none, assigned_to := none
    next_action_date := none, volume := none, cryo_storage_position := none
    created_by := "alice", created_at := 2 }

/-- A store holding a single row with id 1, notes set and a pending
next-action date. -/
def demoStore1 : LogStore :=
  ⟨[{ baseRow with notes := some "n", next_action_date := some ⟨2024, 2, 1⟩ }], 2⟩

/-- The dict `field_updates = {"notes": "x"}`. -/
def notesPatch : LogUpdates := { notes := some (some "x") }

/-- The dict `field_updates = {"created_by": "bob"}`. -/
def createdByPatch : LogUpdates := { created_by := some "bob" }

/-- A two-row store for the bulk-update scenarios. -/
def bulkDemoStore : LogStore :=
  ⟨[{ baseRow with id := 1 }, { baseRow with id := 2, created_at := 2 }], 3⟩

/-- Patch row 1's notes. -/
def bulkC1 : BulkChange := ⟨some 1, { notes := some (some "a") }⟩

/-- Patch row 2's notes. -/
def bulkC2 : BulkChange := ⟨some 2, { notes := some (some "b") }⟩

/-- Patch a row id that does not exist in `bulkDemoStore`. -/
def bulkCBad : BulkChange := ⟨some 99, { notes := some (some "c") }⟩

/-- State of `bulkDemoStore` after both existing rows got their notes patched. -/
def bulkDemoAfter : LogStore :=
  ⟨[{ baseRow with id := 1, notes := some "a" },
    { baseRow with id := 2, created_at := 2, notes := some "b" }], 3⟩

/-- Older passage-3 row for cell line L6. -/
def rowP3 : LogRow :=
  { baseRow with id := 1, cell_line := some "L6", passage := some 3 }

/-- Newer passage-5 row for cell line L6. -/
def rowP5 : LogRow :=
  { baseRow with
    id := 2, cell_line := some "L6", passage := some 5
    date := ⟨2024, 2, 1⟩, created_at := 2 }

/-- Two-entry history of cell line L6 (last passage 5). -/
def passageStore : LogStore := ⟨[rowP3, rowP5], 3⟩

/-- Older Thawing row for L7 carrying thaw id T1. -/
def rowT1 : LogRow :=
  { baseRow with
    id := 1, cell_line := some "L7", event_type := some "Thawing"
    thaw_id := some "T1" }

/-- Most recent Thawing row for L7, with NULL thaw id. -/
def rowTNull : LogRow :=
  { baseRow with
    id := 2, cell_line := some "L7", event_type := some "Thawing"
    thaw_id := none, date := ⟨2024, 2, 1⟩, created_at := 2 }

/-- Thawing history of L7: the most recent Thawing entry has a NULL thaw id. -/
def thawHistStore : LogStore := ⟨[rowT1, rowTNull], 3⟩

/-- Reference catalogs with every table empty. -/
def emptyRefDb : RefDb := {}

/-- One weekend-duty row: 2024-03-02 assigned to alice. -/
def wkRows : List WeekendRow := [⟨⟨2024, 3, 2⟩, some "alice", none, 0⟩]

/-- A fully filled submit form whose next-action date 2024-01-01 lies in the
past relative to a later "today". -/
def fPast : SubmitForm :=
  { cell_line := some "L", vessel := some "T25", location := some "Inc A"
    medium := some "StemFlex", cell_type := some "iPSC"
    cryo_vial_position := some "A1", operator := some "Jane Doe", notes := none
    event_type := "Thawing", linked_thaw_id := none, passage_no := some 1
    split_auto := none, assigned_to := none, log_date := ⟨2024, 6, 1⟩
    next_action_date := some ⟨2024, 1, 1⟩, volume := none }

/-! ## Helper lemmas -/

/-- Every suffix list contains the empty suffix. -/
lemma tails_any_isEmpty (s : List Char) :
    (s.tails.any fun t => t.isEmpty) = true := by
  induction s with
  | nil => rfl
  | cons c s ih =>
    rw [List.tails_cons, List.any_cons, ih]
    simp

/-- A pattern consisting of a single `%` matches every string. -/
lemma likeMatch_percent (s : List Char) : likeMatch ['%'] s = true := by
  simp only [likeMatch]
  simp [tails_any_isEmpty s]

/-- For a wildcard-free pattern `p`, matching `p ++ ['%']` is exactly the
starts-with test. -/
lemma likeMatch_append_percent (p : List Char)
    (hp : ∀ c ∈ p, c ≠ '%' ∧ c ≠ '_') (s : List Char) :
    likeMatch (p ++ ['%']) s = p.isPrefixOf s := by
  induction p generalizing s with
  | nil => simpa [List.isPrefixOf] using likeMatch_percent s
  | cons c p ih =>
    obtain ⟨hc1, hc2⟩ := hp c (List.mem_cons_self c p)
    have hp2 : ∀ x ∈ p, x ≠ '%' ∧ x ≠ '_' := fun x hx => hp x (List.mem_cons_of_mem c hx)
    cases s with
    | nil =>
      rw [List.cons_append]
      simp only [likeMatch]
      rw [if_neg hc1]
      simp [List.isPrefixOf]
    | cons d s =>
      rw [List.cons_append]
      simp only [likeMatch]
      rw [if_neg hc1]
      have h2 : (c == '_') = false := by simpa using hc2
      simp only [List.isPrefixOf, h2, Bool.false_or, ih hp2 s]

lemma rowLater_irrefl (a : LogRow) : ¬rowLater a a := by
  intro h
  rcases h with h | ⟨_, hc⟩
  · unfold Ymd.lt at h; omega
  · omega

lemma rowLater_asymm {a b : LogRow} (h : rowLater a b) : ¬rowLater b a := by
  intro h2
  rcases h with h | ⟨he, hc⟩ <;> rcases h2 with h2 | ⟨he2, hc2⟩
  · unfold Ymd.lt at h h2; omega
  · rw [he2] at h; exact rowLater_irrefl b (Or.inl h)
  · rw [he] at h2; exact rowLater_irrefl a (Or.inl h2)
  · omega

/-- The scan for the most recent row returns `r` whenever `r` strictly beats
every other remaining row and the current best. -/
lemma foldBest_eq (l : List LogRow) : ∀ (b r : LogRow),
    (r = b ∨ r ∈ l) →
    (∀ x ∈ l, x ≠ r → rowLater r x) →
    (b ≠ r → rowLater r b) →
    l.foldl bestStep (some b) = some r := by
  induction l with
  | nil =>
    intro b r hmem _ _
    rcases hmem with h | h
    · subst h; rfl
    · cases h
  | cons x xs ih =>
    intro b r hmem hbeats hacc
    rw [List.foldl_cons]
    by_cases hx : x = r
    · by_cases hb : b = r
      · have hs : bestStep (some b) x = some b := by
          rw [hx, hb]
          simp [bestStep, rowLater_irrefl r]
        rw [hs]
        exact ih b r (Or.inl hb.symm)
          (fun y hy hne => hbeats y (List.mem_cons_of_mem x hy) hne) hacc
      · have hrb : rowLater r b := hacc hb
        have hs : bestStep (some b) x = some x := by
          rw [hx]; simp [bestStep, hrb]
        rw [hs, hx]
        exact ih r r (Or.inl rfl)
          (fun y hy hne => hbeats y (List.mem_cons_of_mem x hy) hne)
          (fun hne => absurd rfl hne)
    · have hrx : rowLater r x := hbeats x (List.mem_cons_self x xs) hx
      by_cases hxb : rowLater x b
      · have hs : bestStep (some b) x = some x := by simp [bestStep, hxb]
        rw [hs]
        have hmem2 : r ∈ xs := by
          rcases hmem with h | h
          · exfalso
            rw [← h] at hxb
            exact rowLater_asymm hrx hxb
          · rcases List.mem_cons.mp h with h2 | h2
            · exact absurd h2.symm hx
            · exact h2
        exact ih x r (Or.inr hmem2)
          (fun y hy hne => hbeats y (List.mem_cons_of_mem x hy) hne)
          (fun _ => hrx)
      · have hs : bestStep (some b) x = some b := by simp [bestStep, hxb]
        rw [hs]
        have hmem2 : r = b ∨ r ∈ xs := by
          rcases hmem with h | h
          · exact Or.inl h
          · rcases List.mem_cons.mp h with h2 | h2
            · exact absurd h2.symm hx
            · exact Or.inr h2
        exact ih b r hmem2
          (fun y hy hne => hbeats y (List.mem_cons_of_mem x hy) hne) hacc

/-- The scan modelling `ORDER BY ... LIMIT 1` returns the unique strictly-most-recent row. -/
lemma bestRow_eq (l : List LogRow) (r : LogRow) (hmem : r ∈ l)
    (hbeats : ∀ x ∈ l, x ≠ r → rowLater r x) :
    bestRow l = some r := by
  cases l with
  | nil => cases hmem
  | cons x xs =>
    unfold bestRow
    rw [List.foldl_cons]
    have hstep : bestStep none x = some x := rfl
    rw [hstep]
    exact foldBest_eq xs x r (List.mem_cons.mp hmem)
      (fun y hy hne => hbeats y (List.mem_cons_of_mem x hy) hne)
      (hbeats x (List.mem_cons_self x xs))

/-- A map that fixes every member of a list leaves the list unchanged. -/
lemma map_fix {α : Type} {l : List α} {f : α → α} (h : ∀ x ∈ l, f x = x) :
    l.map f = l := by
  induction l with
  | nil => rfl
  | cons x xs ih =>
    rw [List.map_cons, h x (List.mem_cons_self x xs),
      ih (fun y hy => h y (List.mem_cons_of_mem x hy))]

lemma opt_getD_getD {α : Type} (o : Option α) (x : α) :
    o.getD (o.getD x) = o.getD x := by
  cases o <;> rfl

lemma applyUpdates_empty (r : LogRow) : applyUpdates LogUpdates.empty r = r := rfl

lemma applyUpdates_idem (u : LogUpdates) (r : LogRow) :
    applyUpdates u (applyUpdates u r) = applyUpdates u r := by
  simp only [applyUpdates]
  congr 1 <;> exact opt_getD_getD ..

/-- Unfolded shape of `updateLogFields` (it never raises). -/
lemma updateLogFields_def (s : LogStore) (i : Nat) (u : LogUpdates) :
    updateLogFields s i u =
      Except.ok (if u = LogUpdates.empty then s
        else { s with rows := s.rows.map (fun r => if r.id = i then applyUpdates u r else r) }) := by
  unfold updateLogFields
  split <;> simp_all

/-- An UPDATE whose WHERE clause matches no row leaves the store unchanged
and still succeeds. -/
lemma updateLogFields_no_match (s : LogStore) (i : Nat) (u : LogUpdates)
    (h : ∀ r ∈ s.rows, r.id ≠ i) :
    updateLogFields s i u = Except.ok s := by
  rw [updateLogFields_def]
  by_cases he : u = LogUpdates.empty
  · rw [if_pos he]
  · rw [if_neg he]
    have hrows : s.rows.map (fun r => if r.id = i then applyUpdates u r else r) = s.rows :=
      map_fix (fun r hr => if_neg (h r hr))
    rw [hrows]

/-- Function `bulk_update_logs` never raises either. -/
lemma bulkUpdateLogs_ok (l : List BulkChange) : ∀ s : LogStore,
    ∃ s2, bulkUpdateLogs s l = Except.ok s2 := by
  induction l with
  | nil => intro s; exact ⟨s, rfl⟩
  | cons c rest ih =>
    intro s
    unfold bulkUpdateLogs
    cases hc : c.id with
    | none => exact ih s
    | some i =>
      dsimp only
      by_cases he : c.updates = LogUpdates.empty
      · rw [if_pos he]
        exact ih s
      · rw [if_neg he, updateLogFields_def]
        exact ih _

lemma refTable_setRefTable (db : RefDb) (k : RefKind) (t : List (String × Nat)) :
    refTable (setRefTable db k t) k = t := by
  cases k <;> rfl

lemma setRefTable_setRefTable (db : RefDb) (k : RefKind) (t t2 : List (String × Nat)) :
    setRefTable (setRefTable db k t) k t2 = setRefTable db k t2 := by
  cases k <;> rfl

lemma insertIfAbsent_has (t : List (String × Nat)) (n : String) (ts : Nat) :
    (insertIfAbsent t n ts).any (fun e => decide (e.1 = n)) = true := by
  unfold insertIfAbsent
  by_cases h : t.any (fun e => decide (e.1 = n)) = true
  · rw [if_pos h]; exact h
  · rw [if_neg h]
    rw [List.any_append]
    simp

lemma insertIfAbsent_of_has (t : List (String × Nat)) (n : String) (ts : Nat)
    (h : t.any (fun e => decide (e.1 = n)) = true) :
    insertIfAbsent t n ts = t := by
  unfold insertIfAbsent
  rw [if_pos h]

lemma countRef_insertIfAbsent (t : List (String × Nat)) (n : String) (ts : Nat)
    (h : countRef t n ≤ 1) :
    countRef (insertIfAbsent t n ts) n = 1 := by
  unfold insertIfAbsent
  by_cases ha : t.any (fun e => decide (e.1 = n)) = true
  · rw [if_pos ha]
    obtain ⟨e, he, hp⟩ := List.any_eq_true.mp ha
    have hmem : e ∈ t.filter (fun e => decide (e.1 = n)) := List.mem_filter.mpr ⟨he, hp⟩
    have hpos : 1 ≤ countRef t n := by
      unfold countRef
      exact List.length_pos.mpr (List.ne_nil_of_mem hmem)
    omega
  · rw [if_neg ha]
    have h0 : t.filter (fun e => decide (e.1 = n)) = [] := by
      rw [List.filter_eq_nil_iff]
      intro e he
      intro hp
      exact ha (List.any_eq_true.mpr ⟨e, he, hp⟩)
    unfold countRef
    rw [List.filter_append, h0]
    simp

lemma mem_of_getLast? {α : Type} {l : List α} {x : α} (h : x ∈ l.getLast?) : x ∈ l := by
  obtain ⟨hne, rfl⟩ := List.mem_getLast?_eq_getLast h
  exact List.getLast_mem hne

/-! ## Claim theorems -/

/-- C1, counterexample: `generate_thaw_id` counts prior entries with the SQL
filter `thaw_id LIKE prefix + "%"`, not with a literal starts-with test.  For
operator `"% %"` the initials are `"%%"`, the prefix is
`"TH-20240301-CELL-%%"`, and the LIKE pattern also matches the existing
thaw id `"TH-20240301-CELL-JD-01"`: the code yields counter 02 where the
claim's starts-with count (zero matches) demands 01. -/
theorem generate_thaw_id_cex :
    generateThawId thawCexStore none (some "% %") ⟨2024, 3, 1⟩ =
      "TH-20240301-CELL-%%-02" ∧
    generateThawIdPerSpec thawCexStore none (some "% %") ⟨2024, 3, 1⟩ =
      "TH-20240301-CELL-%%-01" := by
  exact ⟨rfl, rfl⟩

/-- C1 (amended): `generate_thaw_id` returns
`"TH-" + YYYYMMDD + "-" + normalize(cell_line) + "-" + initials(operator) +
"-" + zero_padded(N+1, 2)` where N counts entries whose `thaw_id` matches the
SQL LIKE pattern `prefix + "%"`; whenever the prefix contains no LIKE
wildcard (`%` or `_`) - in particular for any alphanumeric operator initials -
N is exactly the count of entries whose thaw_id starts with the prefix, as
the claim states, and the claim's concrete example holds verbatim. -/
theorem generate_thaw_id_correct :
    (∀ (s : LogStore) (cl op : Option String) (d : Ymd),
      (∀ c ∈ (thawPfx cl op d).toList, c ≠ '%' ∧ c ≠ '_') →
      generateThawId s cl op d =
        thawPfx cl op d ++ "-" ++ padNum 2 (startsWithCount s (thawPfx cl op d) + 1)) ∧
    generateThawId emptyLogStore (some "BIHi005-A-24") (some "Jane Doe") ⟨2024, 3, 1⟩ =
      "TH-20240301-BIHI005A24-JD-01" := by
  constructor
  · intro s cl op d hp
    have hf : (s.rows.filter (fun r =>
        match r.thaw_id with
        | some t => likeMatch ((thawPfx cl op d).toList ++ ['%']) t.toList
        | none => false)) =
      (s.rows.filter (fun r =>
        match r.thaw_id with
        | some t => (thawPfx cl op d).toList.isPrefixOf t.toList
        | none => false)) := by
      apply List.filter_congr
      intro r _
      cases ht : r.thaw_id with
      | none => simp [ht]
      | some t =>
        simp only [ht]
        exact likeMatch_append_percent _ hp t.toList
    simp only [generateThawId, startsWithCount]
    rw [hf]
  · rfl

/-- C1 witness: the amended statement applied to a concrete store with one
prior thaw entry and a wildcard-free prefix. -/
theorem generate_thaw_id_witness :
    generateThawId thawCexStore (some "BIHi005-A-24") (some "Jane Doe") ⟨2024, 3, 1⟩ =
      thawPfx (some "BIHi005-A-24") (some "Jane Doe") ⟨2024, 3, 1⟩ ++ "-" ++
        padNum 2 (startsWithCount thawCexStore
          (thawPfx (some "BIHi005-A-24") (some "Jane Doe") ⟨2024, 3, 1⟩) + 1) :=
  generate_thaw_id_correct.1 thawCexStore (some "BIHi005-A-24") (some "Jane Doe")
    ⟨2024, 3, 1⟩ (by decide)

/-- C2, counterexample: two consecutive `insert_log` calls both return the
literal `0` - the returned values are neither unique nor increasing - even
though the store itself assigned the fresh ids 1 and 2 to the rows. -/
theorem insert_log_cex :
    (insertLog emptyLogStore payA).1 = 0 ∧
    (insertLog (insertLog emptyLogStore payA).2 payA).1 = 0 ∧
    (insertLog (insertLog emptyLogStore payA).2 payA).2.rows.map LogRow.id = [1, 2] := by
  exact ⟨rfl, rfl, rfl⟩

/-- C2 (amended): `insert_log` appends a row whose id is the store's
autoincrement counter, so row ids are unique and strictly increasing with
insertion order, but the function's return value is the constant 0, not the
new row's id. -/
theorem insert_log_returns_zero (s : LogStore) (p : LogPayload)
    (hinv : ∀ r ∈ s.rows, r.id < s.nextId) :
    (insertLog s p).1 = 0 ∧
    (insertLog s p).2.rows.map LogRow.id = s.rows.map LogRow.id ++ [s.nextId] ∧
    (∀ r ∈ (insertLog s p).2.rows, r.id < (insertLog s p).2.nextId) ∧
    (List.Chain' (· < ·) (s.rows.map LogRow.id) →
      List.Chain' (· < ·) ((insertLog s p).2.rows.map LogRow.id)) := by
  have hmap : (insertLog s p).2.rows.map LogRow.id = s.rows.map LogRow.id ++ [s.nextId] := by
    simp [insertLog, LogPayload.toRow]
  refine ⟨rfl, hmap, ?_, ?_⟩
  · intro r hr
    simp only [insertLog] at hr
    rcases List.mem_append.mp hr with h | h
    · exact Nat.lt_succ_of_lt (hinv r h)
    · have : r = p.toRow s.nextId := List.mem_singleton.mp h
      rw [this]
      exact Nat.lt_succ_self s.nextId
  · intro hch
    rw [hmap, List.chain'_append]
    refine ⟨hch, List.chain'_singleton s.nextId, ?_⟩
    intro x hx y hy
    have hxmem : x ∈ s.rows.map LogRow.id := mem_of_getLast? hx
    obtain ⟨r, hr, hre⟩ := List.mem_map.mp hxmem
    have hyn : s.nextId = y := by simpa using hy
    rw [← hyn, ← hre]
    exact hinv r hr

/-- C2 witness: the amended statement applied to the empty store. -/
theorem insert_log_returns_zero_witness :
    (insertLog emptyLogStore payA).1 = 0 ∧
    (insertLog emptyLogStore payA).2.rows.map LogRow.id =
      emptyLogStore.rows.map LogRow.id ++ [emptyLogStore.nextId] ∧
    (∀ r ∈ (insertLog emptyLogStore payA).2.rows,
      r.id < (insertLog emptyLogStore payA).2.nextId) ∧
    (List.Chain' (· < ·) (emptyLogStore.rows.map LogRow.id) →
      List.Chain' (· < ·) ((insertLog emptyLogStore payA).2.rows.map LogRow.id)) :=
  insert_log_returns_zero emptyLogStore payA (by decide)

/-- C3, counterexample: patching the non-existent row id 99 with a non-empty
update dict does not fail with any NotFound condition - `update_log_fields`
has no raise path and returns normally - although the store is indeed left
unchanged. -/
theorem update_log_fields_missing_cex :
    updateLogFields demoStore1 99 notesPatch = Except.ok demoStore1 := by
  rfl

/-- C3 (amended): when the id identifies no existing log row, the patch
operation returns successfully without signalling NotFound, and the log
store is left unchanged (a silent no-op). -/
theorem update_log_fields_missing (s : LogStore) (i : Nat) (u : LogUpdates)
    (h : ∀ r ∈ s.rows, r.id ≠ i) :
    updateLogFields s i u = Except.ok s :=
  updateLogFields_no_match s i u h

/-- C3 witness: the amended statement applied to a one-row store and an
absent row id. -/
theorem update_log_fields_missing_witness :
    updateLogFields bulkDemoStore 50 createdByPatch = Except.ok bulkDemoStore :=
  update_log_fields_missing bulkDemoStore 50 createdByPatch (by decide)

/-- C4, counterexample: `update_log_fields` applies whatever columns the
update dict supplies - including `created_by`, which the claim says must
never be altered.  Patching row 1 with `{"created_by": "bob"}` rewrites its
`created_by` from "alice" to "bob" (the same construction also alters `id`
or `created_at` when supplied). -/
theorem update_log_fields_created_by_cex :
    demoStore1.rows.map LogRow.created_by = ["alice"] ∧
    updateLogFields demoStore1 1 createdByPatch =
      Except.ok ⟨[{ baseRow with
        notes := some "n", next_action_date := some ⟨2024, 2, 1⟩
        created_by := "bob" }], 2⟩ := by
  exact ⟨rfl, rfl⟩

/-- C4 (amended): patching changes exactly the supplied fields of the
matching row and leaves every unsupplied field byte-identical (in particular
`{notes: x}` leaves `next_action_date` untouched), leaves every other row
untouched, and is idempotent; but `id`, `created_by` and `created_at` are
only preserved when the update dict does not supply them. -/
theorem update_log_fields_delta (s : LogStore) (i : Nat) (u : LogUpdates)
    (r : LogRow) (hr : r ∈ s.rows) :
    ∃ s2, updateLogFields s i u = Except.ok s2 ∧
      (r.id ≠ i → r ∈ s2.rows) ∧
      (r.id = i → applyUpdates u r ∈ s2.rows) ∧
      updateLogFields s2 i u = Except.ok s2 ∧
      (u.id = none → (applyUpdates u r).id = r.id) ∧
      (u.date = none → (applyUpdates u r).date = r.date) ∧
      (u.cell_line = none → (applyUpdates u r).cell_line = r.cell_line) ∧
      (u.event_type = none → (applyUpdates u r).event_type = r.event_type) ∧
      (u.passage = none → (applyUpdates u r).passage = r.passage) ∧
      (u.vessel = none → (applyUpdates u r).vessel = r.vessel) ∧
      (u.location = none → (applyUpdates u r).location = r.location) ∧
      (u.medium = none → (applyUpdates u r).medium = r.medium) ∧
      (u.cell_type = none → (applyUpdates u r).cell_type = r.cell_type) ∧
      (u.notes = none → (applyUpdates u r).notes = r.notes) ∧
      (u.operator = none → (applyUpdates u r).operator = r.operator) ∧
      (u.thaw_id = none → (applyUpdates u r).thaw_id = r.thaw_id) ∧
      (u.cryo_vial_position = none →
        (applyUpdates u r).cryo_vial_position = r.cryo_vial_position) ∧
      (u.image_path = none → (applyUpdates u r).image_path = r.image_path) ∧
      (u.assigned_to = none → (applyUpdates u r).assigned_to = r.assigned_to) ∧
      (u.next_action_date = none →
        (applyUpdates u r).next_action_date = r.next_action_date) ∧
      (u.volume = none → (applyUpdates u r).volume = r.volume) ∧
      (u.cryo_storage_position = none →
        (applyUpdates u r).cryo_storage_position = r.cryo_storage_position) ∧
      (u.created_by = none → (applyUpdates u r).created_by = r.created_by) ∧
      (u.created_at = none → (applyUpdates u r).created_at = r.created_at) ∧
      (∀ v, u.notes = some v → (applyUpdates u r).notes = v) ∧
      (∀ v, u.next_action_date = some v → (applyUpdates u r).next_action_date = v) ∧
      applyUpdates u (applyUpdates u r) = applyUpdates u r := by
  have hfields :
      (u.id = none → (applyUpdates u r).id = r.id) ∧
      (u.date = none → (applyUpdates u r).date = r.date) ∧
      (u.cell_line = none → (applyUpdates u r).cell_line = r.cell_line) ∧
      (u.event_type = none → (applyUpdates u r).event_type = r.event_type) ∧
      (u.passage = none → (applyUpdates u r).passage = r.passage) ∧
      (u.vessel = none → (applyUpdates u r).vessel = r.vessel) ∧
      (u.location = none → (applyUpdates u r).location = r.location) ∧
      (u.medium = none → (applyUpdates u r).medium = r.medium) ∧
      (u.cell_type = none → (applyUpdates u r).cell_type = r.cell_type) ∧
      (u.notes = none → (applyUpdates u r).notes = r.notes) ∧
      (u.operator = none → (applyUpdates u r).operator = r.operator) ∧
      (u.thaw_id = none → (applyUpdates u r).thaw_id = r.thaw_id) ∧
      (u.cryo_vial_position = none →
        (applyUpdates u r).cryo_vial_position = r.cryo_vial_position) ∧
      (u.image_path = none → (applyUpdates u r).image_path = r.image_path) ∧
      (u.assigned_to = none → (applyUpdates u r).assigned_to = r.assigned_to) ∧
      (u.next_action_date = none →
        (applyUpdates u r).next_action_date = r.next_action_date) ∧
      (u.volume = none → (applyUpdates u r).volume = r.volume) ∧
      (u.cryo_storage_position = none →
        (applyUpdates u r).cryo_storage_position = r.cryo_storage_position) ∧
      (u.created_by = none → (applyUpdates u r).created_by = r.created_by) ∧
      (u.created_at = none → (applyUpdates u r).created_at = r.created_at) ∧
      (∀ v, u.notes = some v → (applyUpdates u r).notes = v) ∧
      (∀ v, u.next_action_date = some v → (applyUpdates u r).next_action_date = v) ∧
      applyUpdates u (applyUpdates u r) = applyUpdates u r := by
    refine ⟨?_, ?_, ?_, ?_, ?_, ?_, ?_, ?_, ?_, ?_, ?_, ?_, ?_, ?_, ?_, ?_, ?_, ?_,
      ?_, ?_, ?_, ?_, applyUpdates_idem u r⟩ <;>
      first
        | (intro h; simp [applyUpdates, h])
        | (intro v h; simp [applyUpdates, h])
  by_cases he : u = LogUpdates.empty
  · refine ⟨s, ?_, fun _ => hr, fun _ => ?_, ?_, hfields⟩
    · rw [updateLogFields_def, if_pos he]
    · rw [he, applyUpdates_empty]; exact hr
    · rw [updateLogFields_def, if_pos he]
  · set f : LogRow → LogRow := fun x => if x.id = i then applyUpdates u x else x with hfdef
    refine ⟨{ s with rows := s.rows.map f }, ?_, ?_, ?_, ?_, hfields⟩
    · rw [updateLogFields_def, if_neg he]
    · intro hne
      exact List.mem_map.mpr ⟨r, hr, by simp [hfdef, hne]⟩
    · intro heq
      exact List.mem_map.mpr ⟨r, hr, by simp [hfdef, heq]⟩
    · rw [updateLogFields_def, if_neg he]
      have hmm : (s.rows.map f).map f = s.rows.map f := by
        rw [List.map_map]
        apply List.map_congr_left
        intro x _
        by_cases hx : x.id = i
        · simp only [Function.comp_apply, hfdef, if_pos hx]
          by_cases hx2 : (applyUpdates u x).id = i
          · rw [if_pos hx2, applyUpdates_idem]
          · rw [if_neg hx2]
        · simp only [Function.comp_apply, hfdef, if_neg hx]
      rw [hmm]

/-- C4 witness: the amended statement applied to the one-row store with a
notes-only patch. -/
theorem update_log_fields_delta_witness :
    ∃ s2, updateLogFields demoStore1 1 notesPatch = Except.ok s2 ∧
      ({ baseRow with notes := some "n", next_action_date := some ⟨2024, 2, 1⟩ } : LogRow).id = 1 ∧
      notesPatch.next_action_date = none := by
  obtain ⟨s2, h1, -⟩ := update_log_fields_delta demoStore1 1 notesPatch
    { baseRow with notes := some "n", next_action_date := some ⟨2024, 2, 1⟩ }
    (by decide)
  exact ⟨s2, h1, rfl, rfl⟩

/-- C5, counterexample: in a 3-patch batch where the middle patch targets the
non-existent id 99, the two other patches are indeed applied - but the caller
receives no report identifying the failed row: `bulk_update_logs` returns
normally and its outcome is byte-identical to running the batch with the
failing patch removed. -/
theorem bulk_update_logs_cex :
    bulkUpdateLogs bulkDemoStore [bulkC1, bulkCBad, bulkC2] = Except.ok bulkDemoAfter ∧
    bulkUpdateLogs bulkDemoStore [bulkC1, bulkC2] = Except.ok bulkDemoAfter := by
  exact ⟨rfl, rfl⟩

/-- C5 (amended): a patch whose id matches no row is skipped without
affecting the others - every other patch in the batch is still applied
(per-row independence, no rollback) - and the call still succeeds; but no
report is produced: the result equals that of the batch without the failing
patch, so the failure is silent. -/
theorem bulk_update_logs_isolation (s : LogStore) (c : BulkChange)
    (rest : List BulkChange) (i : Nat)
    (hid : c.id = some i) (hmiss : ∀ r ∈ s.rows, r.id ≠ i) :
    bulkUpdateLogs s (c :: rest) = bulkUpdateLogs s rest ∧
    ∃ s2, bulkUpdateLogs s (c :: rest) = Except.ok s2 := by
  have heq : bulkUpdateLogs s (c :: rest) = bulkUpdateLogs s rest := by
    have h1 : bulkUpdateLogs s (c :: rest) =
        match c.id with
        | none => bulkUpdateLogs s rest
        | some i =>
          if c.updates = LogUpdates.empty then bulkUpdateLogs s rest
          else
            match updateLogFields s i c.updates with
            | Except.ok s2 => bulkUpdateLogs s2 rest
            | Except.error e => Except.error e := rfl
    rw [h1, hid]
    dsimp only
    by_cases he : c.updates = LogUpdates.empty
    · rw [if_pos he]
    · rw [if_neg he, updateLogFields_no_match s i c.updates hmiss]
  refine ⟨heq, ?_⟩
  rw [heq]
  exact bulkUpdateLogs_ok rest s

/-- C5 witness: the amended statement applied to the two-row store with a
batch whose head patch targets the absent id 99. -/
theorem bulk_update_logs_isolation_witness :
    bulkUpdateLogs bulkDemoStore [bulkCBad, bulkC1, bulkC2] =
      bulkUpdateLogs bulkDemoStore [bulkC1, bulkC2] :=
  (bulk_update_logs_isolation bulkDemoStore bulkCBad [bulkC1, bulkC2] 99 rfl (by decide)).1

/-- C6: for a cell line whose most recent log entry (date desc, created_at
desc) has positive passage P, `predict_next_passage` returns exactly P+1;
with no prior entry, or last passage NULL or 0, it returns `none`. -/
theorem predict_next_passage_correct (s : LogStore) (c : String) :
    ((∀ r ∈ s.rows, r.cell_line ≠ some c) → predictNextPassage s c = none) ∧
    (∀ r, r ∈ s.rows → r.cell_line = some c →
      (∀ x, x ∈ s.rows → x.cell_line = some c → x ≠ r → rowLater r x) →
      ((∀ P : Int, r.passage = some P → 0 < P → predictNextPassage s c = some (P + 1)) ∧
       (r.passage = none → predictNextPassage s c = none) ∧
       (r.passage = some 0 → predictNextPassage s c = none))) := by
  constructor
  · intro h
    have hf : s.rows.filter (fun r => decide (r.cell_line = some c)) = [] := by
      rw [List.filter_eq_nil_iff]
      intro r hr
      simpa using h r hr
    have hlast : getLastLogForCellLine s c = none := by
      unfold getLastLogForCellLine
      rw [hf]
      rfl
    unfold predictNextPassage
    rw [hlast]
  · intro r hr hcl hbeats
    have hmem : r ∈ s.rows.filter (fun x => decide (x.cell_line = some c)) :=
      List.mem_filter.mpr ⟨hr, by simpa using hcl⟩
    have hlast : getLastLogForCellLine s c = some r := by
      unfold getLastLogForCellLine
      apply bestRow_eq _ r hmem
      intro x hx hne
      obtain ⟨hxmem, hxc⟩ := List.mem_filter.mp hx
      exact hbeats x hxmem (by simpa using hxc) hne
    refine ⟨?_, ?_, ?_⟩
    · intro P hp hpos
      unfold predictNextPassage
      rw [hlast]
      simp [hp, hpos]
    · intro hp
      unfold predictNextPassage
      rw [hlast]
      simp [hp]
    · intro hp
      unfold predictNextPassage
      rw [hlast]
      simp [hp]

/-- C6 witness: a two-entry history whose most recent entry has passage 5
predicts passage 6. -/
theorem predict_next_passage_witness :
    predictNextPassage passageStore "L6" = some 6 := by
  have h := (predict_next_passage_correct passageStore "L6").2 rowP5 (by decide) (by decide)
    (by decide)
  simpa using h.1 5 rfl (by decide)

/-- C7, counterexample: the most recent Thawing entry of L7 (`rowTNull`,
dated 2024-02-01) has a NULL `thaw_id`, so under the claim the lookup should
yield `none`; but `get_last_thaw_id` filters `thaw_id IS NOT NULL` and skips
back to the older entry, returning "T1". -/
theorem get_last_thaw_id_cex :
    getLastThawId thawHistStore "L7" = some "T1" ∧
    lastThawIdPerSpec thawHistStore "L7" = none := by
  exact ⟨rfl, rfl⟩

/-- C7 (amended): `get_last_thaw_id` returns the `thaw_id` of the most
recent entry with `event_type = "Thawing"` *and a non-NULL thaw_id*
(date desc, created_at desc) - an empty-string thaw_id yields `none` - and
returns `none` when no Thawing entry with a non-NULL thaw_id exists. -/
theorem get_last_thaw_id_correct (s : LogStore) (c : String) :
    (∀ r t, r ∈ s.rows → r.cell_line = some c → r.event_type = some "Thawing" →
      r.thaw_id = some t →
      (∀ x, x ∈ s.rows → x.cell_line = some c → x.event_type = some "Thawing" →
        x.thaw_id ≠ none → x ≠ r → rowLater r x) →
      getLastThawId s c = if t = "" then none else some t) ∧
    ((∀ r ∈ s.rows, r.cell_line = some c → r.event_type = some "Thawing" →
      r.thaw_id = none) → getLastThawId s c = none) := by
  constructor
  · intro r t hr hcl hevt hth hbeats
    have hmem : r ∈ s.rows.filter (fun x =>
        decide (x.cell_line = some c) && decide (x.event_type = some "Thawing")
          && x.thaw_id.isSome) :=
      List.mem_filter.mpr ⟨hr, by simp [hcl, hevt, hth]⟩
    have hbest : bestRow (s.rows.filter (fun x =>
        decide (x.cell_line = some c) && decide (x.event_type = some "Thawing")
          && x.thaw_id.isSome)) = some r := by
      apply bestRow_eq _ r hmem
      intro x hx hne
      obtain ⟨hxmem, hxc⟩ := List.mem_filter.mp hx
      rw [Bool.and_eq_true, Bool.and_eq_true] at hxc
      obtain ⟨⟨h1, h2⟩, h3⟩ := hxc
      exact hbeats x hxmem (by simpa using h1) (by simpa using h2)
        (Option.isSome_iff_ne_none.mp h3) hne
    simp only [getLastThawId]
    rw [hbest]
    dsimp only
    rw [hth]
  · intro h
    have hf : s.rows.filter (fun x =>
        decide (x.cell_line = some c) && decide (x.event_type = some "Thawing")
          && x.thaw_id.isSome) = [] := by
      rw [List.filter_eq_nil_iff]
      intro r hr
      intro hp
      rw [Bool.and_eq_true, Bool.and_eq_true] at hp
      obtain ⟨⟨h1, h2⟩, h3⟩ := hp
      have := h r hr (by simpa using h1) (by simpa using h2)
      rw [this] at h3
      cases h3
    simp only [getLastThawId]
    rw [hf]
    rfl

/-- C7 witness: the amended statement applied to the L7 history. -/
theorem get_last_thaw_id_witness :
    getLastThawId thawHistStore "L7" = some "T1" := by
  have h := (get_last_thaw_id_correct thawHistStore "L7").1 rowT1 "T1" (by decide) (by decide)
    (by decide) (by decide) (by decide)
  simpa using h

/-- C8, counterexample: `add_ref_value` inserts `name.strip()`, so adding
`" StemFlex "` twice leaves exactly one entry named `"StemFlex"` and zero
entries carrying the given name `" StemFlex "` - the claim's "exactly one
catalog entry with that name" fails for names with surrounding whitespace. -/
theorem add_ref_value_cex :
    refTable (addRefValue (addRefValue emptyRefDb RefKind.culture_medium " StemFlex " 1)
      RefKind.culture_medium " StemFlex " 2) RefKind.culture_medium = [("StemFlex", 1)] ∧
    countRef (refTable (addRefValue (addRefValue emptyRefDb RefKind.culture_medium
      " StemFlex " 1) RefKind.culture_medium " StemFlex " 2) RefKind.culture_medium)
      " StemFlex " = 0 := by
  exact ⟨rfl, rfl⟩

/-- C8 (amended): for every catalog kind and name, calling `add_ref_value`
twice with the same name results in exactly one catalog entry named
`name.strip()` (equal to the given name whenever it has no surrounding
whitespace, e.g. "StemFlex"), and the second call is a no-op rather than an
error.  The count hypothesis is the table's PRIMARY KEY uniqueness. -/
theorem add_ref_value_idem (db : RefDb) (k : RefKind) (name : String) (t1 t2 : Nat)
    (h : countRef (refTable db k) (pyStrip name) ≤ 1) :
    addRefValue (addRefValue db k name t1) k name t2 = addRefValue db k name t1 ∧
    countRef (refTable (addRefValue db k name t1) k) (pyStrip name) = 1 := by
  constructor
  · unfold addRefValue
    rw [refTable_setRefTable, setRefTable_setRefTable]
    rw [insertIfAbsent_of_has _ _ t2 (insertIfAbsent_has (refTable db k) (pyStrip name) t1)]
  · unfold addRefValue
    rw [refTable_setRefTable]
    exact countRef_insertIfAbsent (refTable db k) (pyStrip name) t1 h

/-- C8 witness: the amended statement applied to the empty catalog and the
spec's example name "StemFlex". -/
theorem add_ref_value_idem_witness :
    addRefValue (addRefValue emptyRefDb RefKind.culture_medium "StemFlex" 1)
      RefKind.culture_medium "StemFlex" 2 =
    addRefValue emptyRefDb RefKind.culture_medium "StemFlex" 1 :=
  (add_ref_value_idem emptyRefDb RefKind.culture_medium "StemFlex" 1 2 (by decide)).1

/-- C9: `get_weekend_assignment_for_date` returns an operator only when a
`weekend_schedule` row exists with exactly the requested date (any returned
operator comes from such a row), and any date with no row - including dates
adjacent to an assigned one - yields `none`. -/
theorem weekend_assignment_exact (rows : List WeekendRow) (d : Ymd) :
    ((∀ r ∈ rows, r.date ≠ d) → getWeekendAssignmentForDate rows d = none) ∧
    (∀ a, getWeekendAssignmentForDate rows d = some a →
      ∃ r, r ∈ rows ∧ r.date = d ∧ r.assigned_to = some a) := by
  constructor
  · intro h
    have hf : rows.find? (fun r => decide (r.date = d)) = none := by
      rw [List.find?_eq_none]
      intro r hr
      simpa using h r hr
    unfold getWeekendAssignmentForDate
    rw [hf]
  · intro a ha
    unfold getWeekendAssignmentForDate at ha
    cases hfind : rows.find? (fun r => decide (r.date = d)) with
    | none => rw [hfind] at ha; cases ha
    | some row =>
      rw [hfind] at ha
      dsimp only at ha
      have hmem : row ∈ rows := List.mem_of_find?_eq_some hfind
      have hdate : row.date = d := by simpa using List.find?_some hfind
      cases hass : row.assigned_to with
      | none => rw [hass] at ha; cases ha
      | some b =>
        rw [hass] at ha
        dsimp only at ha
        by_cases hb : b = ""
        · rw [if_pos hb] at ha; cases ha
        · rw [if_neg hb] at ha
          have hba : b = a := Option.some.inj ha
          rw [hba] at hass
          exact ⟨row, hmem, hdate, hass⟩

/-- C9 witness: with one row assigning 2024-03-02 to alice, the adjacent
date 2024-03-03 yields `none`, and the operator returned for 2024-03-02
comes from an exactly matching row. -/
theorem weekend_assignment_exact_witness :
    getWeekendAssignmentForDate wkRows ⟨2024, 3, 3⟩ = none ∧
    ∃ r, r ∈ wkRows ∧ r.date = ⟨2024, 3, 2⟩ ∧ r.assigned_to = some "alice" := by
  exact ⟨(weekend_assignment_exact wkRows ⟨2024, 3, 3⟩).1 (by decide),
    (weekend_assignment_exact wkRows ⟨2024, 3, 2⟩).2 "alice" (by decide)⟩

/-- C10: a form submission whose next-action date lies strictly before
"today" is rejected with an error (`st.error` + `st.stop`) before any write:
no log row is inserted and no updated store is produced. -/
theorem submit_rejects_past_nad (f : SubmitForm) (today : Ymd) (now : Nat)
    (s : LogStore) (weekend : List WeekendRow) (d : Ymd)
    (hd : f.next_action_date = some d) (hpast : Ymd.lt d today) :
    (∃ e, submitEntry f today now s weekend = Except.error e) ∧
    ∀ s2, submitEntry f today now s weekend ≠ Except.ok s2 := by
  have hnad : nadPast f.next_action_date today = true := by
    rw [hd]
    unfold nadPast
    simpa using hpast
  have herr : ∃ e, submitEntry f today now s weekend = Except.error e := by
    unfold submitEntry
    by_cases hm : missingLabels f ≠ []
    · rw [if_pos hm]
      exact ⟨SubmitError.missingFields (missingLabels f), rfl⟩
    · rw [if_neg hm, if_pos hnad]
      exact ⟨SubmitError.pastNextActionDate, rfl⟩
  refine ⟨herr, ?_⟩
  intro s2 hok
  obtain ⟨e, he⟩ := herr
  rw [he] at hok
  cases hok

/-- C10 witness: a fully filled form dated next-action 2024-01-01 submitted
on 2024-06-01 is rejected. -/
theorem submit_rejects_past_nad_witness :
    ∃ e, submitEntry fPast ⟨2024, 6, 1⟩ 5 emptyLogStore [] = Except.error e :=
  (submit_rejects_past_nad fPast ⟨2024, 6, 1⟩ 5 emptyLogStore [] ⟨2024, 1, 1⟩ rfl
    (by decide)).1
